import Mathlib

/-!
Verification of the twitter-to-discord bridge: a shallow embedding of
`tweetHandler.js` (the post-normalization pipeline) and `twitterClient.js`
(the stream-connection lifecycle manager), with theorems settling the
specification claims about them.
-/

namespace TTD

/-! ### Data model: raw post (tweet) payloads as received from the stream -/

structure User where
  id_str : String
  screen_name : String
deriving DecidableEq

structure VideoVariant where
  url : String
deriving DecidableEq

structure VideoInfo where
  variants : List VideoVariant
deriving DecidableEq

/-- One entry of `extended_entities.media`; `mtype` embeds the JSON `type`
field (`"photo"` or `"animated_gif"`). `video_info` is absent on photos. -/
structure MediaItem where
  mtype : String
  url : String
  media_url_https : String
  video_info : Option VideoInfo
deriving DecidableEq

structure ExtendedEntities where
  media : List MediaItem
deriving DecidableEq

structure ExtendedTweet where
  full_text : String
  extended_entities : Option ExtendedEntities
deriving DecidableEq

structure DeleteStatus where
  id_str : String
deriving DecidableEq

structure DeletePayload where
  status : Option DeleteStatus
deriving DecidableEq

/-- The fields of a retweeted status that `tweetHandler` reads through the
`context` object (`const context = tweet.retweeted_status || tweet`). -/
structure InnerTweet where
  user : User
  text : String
  extended_tweet : Option ExtendedTweet
  extended_entities : Option ExtendedEntities
deriving DecidableEq

/-- A raw post payload. `Option` fields embed JSON fields that may be
absent/null; dereferencing an absent one in JS throws, which the embedding
surfaces as `none` results. -/
structure Tweet where
  delete : Option DeletePayload
  id_str : String
  user : User
  truncated : Bool
  in_reply_to_user_id_str : Option String
  retweeted_status : Option InnerTweet
  text : String
  extended_tweet : Option ExtendedTweet
  extended_entities : Option ExtendedEntities
deriving DecidableEq

def baseUser : User := { id_str := "", screen_name := "" }

def baseTweet : Tweet :=
  { delete := none, id_str := "", user := baseUser, truncated := false,
    in_reply_to_user_id_str := none, retweeted_status := none, text := "",
    extended_tweet := none, extended_entities := none }

/-! ### DedupWindow (`recentTweets` in tweetHandler.js, lines 39-48)

`recentTweets.push(id); if (recentTweets.length > 20) recentTweets.shift();`
guarded by `if (recentTweets.includes(tweet.id_str)) return;`. -/

def dedupInsert (w : List String) (id : String) : List String :=
  if 20 < (w ++ [id]).length then (w ++ [id]).drop 1 else w ++ [id]

/-- One non-manual dedup step: a duplicate id leaves the window unchanged
(the tweet is rejected), a fresh id is pushed with FIFO eviction. -/
def dedupStep (w : List String) (id : String) : List String :=
  if w.contains id then w else dedupInsert w id

/-- Iterated insertion of a stream of ids into the window. -/
def dedupRun (w : List String) (ids : List String) : List String :=
  ids.foldl dedupStep w

/-! ### Context resolution and truncation (tweetHandler.js, lines 61-73) -/

/-- Embeds `const context = tweet.retweeted_status || tweet`. -/
def Tweet.context (t : Tweet) : InnerTweet :=
  match t.retweeted_status with
  | some rt => rt
  | none =>
    { user := t.user, text := t.text, extended_tweet := t.extended_tweet,
      extended_entities := t.extended_entities }

/-- Selects the text and extended entities: when the outer tweet is marked
`truncated`, reads `context.extended_tweet.full_text` /
`context.extended_tweet.extended_entities` (a JS TypeError when
`context.extended_tweet` is absent, embedded as `none`); otherwise reads
`context.text` / `context.extended_entities`. -/
def selectTextEntities (t : Tweet) : Option (String × Option ExtendedEntities) :=
  if t.truncated then
    match t.context.extended_tweet with
    | none => none
    | some et => some (et.full_text, et.extended_entities)
  else
    some (t.context.text, t.context.extended_entities)

/-! ### Single-occurrence string replacement (JS `String.replace` with a
string pattern replaces only the first occurrence; with an empty pattern it
inserts the replacement at position 0). -/

def listStartsWith : List Char → List Char → Bool
  | _, [] => true
  | [], _ :: _ => false
  | c :: cs, p :: ps => c == p && listStartsWith cs ps

def replaceFirstChars (pat rep : List Char) : List Char → List Char
  | [] => if listStartsWith [] pat then rep else []
  | c :: rest =>
    if listStartsWith (c :: rest) pat then rep ++ (c :: rest).drop pat.length
    else c :: replaceFirstChars pat rep rest

def replaceFirst (s pat rep : String) : String :=
  ⟨replaceFirstChars pat.data rep.data s.data⟩

/-! ### Media extraction and URL escaping (tweetHandler.js, lines 79-116) -/

/-- One entry of `mediaUrls`: photos are `\x7b image \x7d`, animated gifs are
`\x7b video, image \x7d`. -/
structure MediaEntry where
  video : Option String
  image : String
deriving DecidableEq

/-- Accumulator for the two media loops: `mediaUrls`, the `escapedUrls`
list, the text being rewritten, and `wraps`, the log of urls on which a
`String.replace` wrap operation was actually performed. -/
structure NormState where
  mediaUrls : List MediaEntry
  escaped : List String
  text : String
  wraps : List String
deriving DecidableEq

/-- Embeds `if (!escapedUrls.includes(media.url)) \x7b escapedUrls.push(media.url);
modifiedText = modifiedText.replace(media.url, ...) \x7d`. -/
def escapeMediaUrl (st : NormState) (url : String) : NormState :=
  if st.escaped.contains url then st
  else
    { st with
      escaped := st.escaped ++ [url],
      text := replaceFirst st.text url ("<" ++ url ++ ">"),
      wraps := st.wraps ++ [url] }

def processPhoto (st : NormState) (m : MediaItem) : NormState :=
  escapeMediaUrl
    { st with mediaUrls := st.mediaUrls ++ [{ video := none, image := m.media_url_https }] }
    m.url

/-- Reads `media.video_info.variants[0].url`; `none` embeds the JS TypeError when
`video_info` is absent or `variants` is empty. -/
def gifVideoUrl (m : MediaItem) : Option String :=
  match m.video_info with
  | none => none
  | some vi =>
    match vi.variants with
    | [] => none
    | v :: _ => some v.url

def processGif (st : NormState) (m : MediaItem) : Option NormState :=
  match gifVideoUrl m with
  | none => none
  | some vurl =>
    some (escapeMediaUrl
      { st with mediaUrls := st.mediaUrls ++ [{ video := some vurl, image := m.media_url_https }] }
      m.url)

def processGifs (st : NormState) : List MediaItem → Option NormState
  | [] => some st
  | m :: ms =>
    match processGif st m with
    | none => none
    | some st' => processGifs st' ms

/-- The two `extendedEntities.media.filter(...).forEach(...)` loops: photos
first, then animated gifs, sharing one `escapedUrls` list. When
`extendedEntities` is absent the text is untouched and no media collected. -/
def extractMedia (ee : Option ExtendedEntities) (text0 : String) : Option NormState :=
  match ee with
  | none => some { mediaUrls := [], escaped := [], text := text0, wraps := [] }
  | some e =>
    let photos := e.media.filter (fun m => m.mtype == "photo")
    let gifs := e.media.filter (fun m => m.mtype == "animated_gif")
    let st1 := photos.foldl processPhoto
      { mediaUrls := [], escaped := [], text := text0, wraps := [] }
    processGifs st1 gifs

/-- The short URLs of the media items, in processing order (photos then
animated gifs). -/
def mediaShortUrls (ms : List MediaItem) : List String :=
  (ms.filter (fun m => m.mtype == "photo")).map MediaItem.url
    ++ (ms.filter (fun m => m.mtype == "animated_gif")).map MediaItem.url

/-! ### Message assembly (tweetHandler.js, lines 119-130) -/

def isJsWhitespace (c : Char) : Bool :=
  c == ' ' || c == '\t' || c == '\n' || c == '\r' || c == '\x0b' || c == '\x0c'

/-- Embeds `modifiedText.trim()`: strips leading and trailing whitespace. -/
def jsTrim (s : String) : String :=
  ⟨((s.data.dropWhile isJsWhitespace).reverse.dropWhile isJsWhitespace).reverse⟩

def assembleStr (t : Tweet) (modifiedText : String) : String :=
  let base := "```" ++ "qml\nNew Tweet from " ++ t.user.screen_name ++ ":" ++ "```"
    ++ "<https://twitter.com/" ++ t.user.screen_name ++ "/status/" ++ t.id_str ++ ">\n"
  if modifiedText == "" then base
  else
    let nameRT := match t.retweeted_status with
      | some rt => rt.user.screen_name
      | none => ""
    base ++ "\n" ++ (if nameRT == "" then "" else "RT @" ++ nameRT ++ ": ")
      ++ modifiedText ++ "\n"

/-! ### The tweet handler (tweetHandler.js, module.exports) -/

inductive HandlerOutcome where
  | deletion
  | rejectedAuthor
  | rejectedDuplicate
  | rejectedReply
  | crashed
  | delivered (media : List MediaEntry) (str : String)
deriving DecidableEq

/-- Result of one handler invocation: the outcome, the DedupWindow after the
call, and the archive filename written (when the archival line is reached). -/
structure HandlerRun where
  outcome : HandlerOutcome
  window : List String
  archived : Option String
deriving DecidableEq

def archiveFileName (t : Tweet) (manual : Bool) : String :=
  "./tweets/" ++ t.user.screen_name ++ "-" ++ t.id_str
    ++ (if manual then "-man" else "") ++ ".json"

/-- Embeds `tweet.in_reply_to_user_id_str && tweet.in_reply_to_user_id_str !==
tweet.user.id_str` (the empty string is falsy in JS). -/
def replyRejects (t : Tweet) : Bool :=
  match t.in_reply_to_user_id_str with
  | none => false
  | some r => r != "" && r != t.user.id_str

/-- The pipeline from the self-reply filter onward: context resolution,
entity decoding (`decode` embeds the external `html-entities` collaborator),
media extraction/escaping, trim, and display-string assembly. -/
def normalizeOutcome (decode : String → String) (t : Tweet) : HandlerOutcome :=
  if replyRejects t then .rejectedReply
  else
    match selectTextEntities t with
    | none => .crashed
    | some (text0, ee) =>
      match extractMedia ee (decode text0) with
      | none => .crashed
      | some st => .delivered st.mediaUrls (assembleStr t (jsTrim st.text))

/-- The exported handler `(tweet, manual) => ...`: deletion check, author
filter (`utils.ids.includes`), dedup filter (skipped when `manual`),
archival, then the normalization pipeline. `ids` is `utils.ids` and
`recent` is `recentTweets` at entry. -/
def tweetHandler (decode : String → String) (ids recent : List String)
    (t : Tweet) (manual : Bool) : HandlerRun :=
  match t.delete with
  | some _ => { outcome := .deletion, window := recent, archived := none }
  | none =>
    if ids.contains t.user.id_str then
      if manual then
        { outcome := normalizeOutcome decode t, window := recent,
          archived := some (archiveFileName t true) }
      else if recent.contains t.id_str then
        { outcome := .rejectedDuplicate, window := recent, archived := none }
      else
        { outcome := normalizeOutcome decode t,
          window := dedupInsert recent t.id_str,
          archived := some (archiveFileName t false) }
    else { outcome := .rejectedAuthor, window := recent, archived := none }

/-! ### Delivery dispatch (tweetHandler.js, lines 132-144) -/

inductive SendEffect where
  | logMediaError
  | send (t : Tweet) (str : String)
deriving DecidableEq

/-- Embeds the `.then(...)` / `.catch(...)` pair on the media-batch promise: exactly one
continuation runs, chosen by the batch outcome. -/
def thenCatch (p : Except String Unit) (onOk : Unit → List SendEffect)
    (onErr : String → List SendEffect) : List SendEffect :=
  match p with
  | .ok u => onOk u
  | .error e => onErr e

/-- Embeds `utils.promiseSome(...).then(() => discordClient.send(tweet, str))
.catch(err => \x7b console.error(err); discordClient.send(tweet, str) \x7d)` -/
def deliveryDispatch (t : Tweet) (str : String) (batch : Except String Unit) :
    List SendEffect :=
  thenCatch batch (fun _ => [.send t str])
    (fun _ => [.logMediaError, .send t str])

def sendsOf (effs : List SendEffect) : List (Tweet × String) :=
  effs.filterMap (fun e =>
    match e with
    | .send t s => some (t, s)
    | .logMediaError => none)

/-- The placeholder `processMediaEntry` resolves for every entry. -/
def processMediaEntry (_media : MediaEntry) (_id : String) : Except String Unit :=
  .ok ()

/-! ### Deletion handler (tweetHandler.js, deleteTweet) -/

inductive DeletionEffect where
  | lookup (tweet_id : String)
deriving DecidableEq

/-- Embeds `deleteTweet(tweet)`: the guard `if (!tweet || !tweet.delete ||
!tweet.delete.status) return;` runs before the `TweetsModel.findOne`
persistence lookup, embedded as the returned effect list. -/
def deleteTweet (t : Option Tweet) : List DeletionEffect :=
  match t with
  | none => []
  | some tw =>
    match tw.delete with
    | none => []
    | some d =>
      match d.status with
      | none => []
      | some s => [.lookup s.id_str]

/-- The `findOne` continuation: one DELETE request URI per recorded
delivered message (channel id, message id). -/
def deleteTweetFollowUp (result : Option (List (String × String))) : List String :=
  match result with
  | none => []
  | some msgs =>
    msgs.map (fun m =>
      "https://discordapp.com/api/channels/" ++ m.1 ++ "/messages/" ++ m.2)

/-! ### twitterClient.js: stream lifecycle handlers -/

/-- The in-memory state shared between the stream client and the handler:
`utils.ids` (TrackedIdSet) and `recentTweets` (DedupWindow). -/
structure StreamState where
  ids : List String
  recentTweets : List String
deriving DecidableEq

/-- The handler registered for the "connection aborted" event: sets `utils.ids = []` and
touches nothing else. -/
def onConnectionAborted (st : StreamState) : StreamState :=
  { st with ids := [] }

inductive HttpAction where
  | logUnauthorized
  | exitProcess
deriving DecidableEq

/-- The handler registered for the "connection error http" event: on 401,
log and `process.exit(1)`; otherwise nothing (the transport reconnects). -/
def onConnectionErrorHttp (code : Nat) : List HttpAction :=
  if code == 401 then [.logUnauthorized, .exitProcess] else []

/-! ### connect / close (twitterClient.js, lines 129-163) -/

inductive ConnAction where
  | closeConn
  | openStream (follow : List String) (stall_warnings : Bool)
  | logDbError
deriving DecidableEq

structure ClientState where
  connOpen : Bool
  ids : List String
  reload : Bool
deriving DecidableEq

/-- Embeds `close()`: closes the connection only when one is open. -/
def closeConnection (st : ClientState) : ClientState × List ConnAction :=
  if st.connOpen then ({ st with connOpen := false }, [.closeConn]) else (st, [])

/-- Embeds `connect()`: clears the reload flag, closes any existing connection,
reloads the tracked ids from the persistence collaborator (`dbResult`,
`none` embedding a failed read), and opens a filtered stream with
`stall_warnings: true` only when the reloaded set is non-empty. -/
def connect (st : ClientState) (dbResult : Option (List String)) :
    ClientState × List ConnAction :=
  let st0 : ClientState := { st with reload := false }
  let p := closeConnection st0
  match dbResult with
  | none => (p.1, p.2 ++ [.logDbError])
  | some feedIds =>
    let st2 : ClientState := { p.1 with ids := feedIds }
    if feedIds.isEmpty then (st2, p.2)
    else ({ st2 with connOpen := true }, p.2 ++ [.openStream feedIds true])

/-! ### Retention sweep (twitterClient.js, removeOldFiles) -/

/-- A file in the `./tweets` archive folder; `stat` is its creation time in
milliseconds, `none` embedding a failed `fs.stat` call. -/
structure FileInfo where
  name : String
  stat : Option Nat
deriving DecidableEq

inductive SweepResult where
  | statError
  | removed
  | retained
deriving DecidableEq

/-- The retention age in ms used at line 180 of twitterClient.js. -/
def monthMs : Nat := 2419200000

/-- Per-file decision: a stat failure is logged (`statError`), otherwise the
file is removed exactly when `now > ctime + 2419200000`. -/
def sweepFile (now : Nat) (f : FileInfo) : SweepResult :=
  match f.stat with
  | none => .statError
  | some ctime => if ctime + monthMs < now then .removed else .retained

/-- The sweep examines every listed file independently. -/
def removeOldFiles (now : Nat) (files : List FileInfo) : List SweepResult :=
  files.map (sweepFile now)

/-! ### Helper lemmas -/

theorem dedupInsert_length_le (w : List String) (id : String) (h : w.length ≤ 20) :
    (dedupInsert w id).length ≤ 20 := by
  unfold dedupInsert
  split
  · simp only [List.length_drop, List.length_append, List.length_singleton]
    omega
  · rename_i h'
    simp only [List.length_append, List.length_singleton] at h' ⊢
    omega

theorem dedupRun_fresh (ids : List String) : ∀ w : List String,
    (∀ id ∈ ids, id ∉ w) → w.length ≤ 20 → ids.Nodup →
    dedupRun w ids = (w ++ ids).drop (w.length + ids.length - 20) := by
  induction ids with
  | nil =>
    intro w _ hlen _
    have h0 : w.length - 20 = 0 := by omega
    simp [dedupRun, h0]
  | cons id rest ih =>
    intro w hfresh hlen hnodup
    have hid : id ∉ w := hfresh id (List.mem_cons_self _ _)
    have hidrest : id ∉ rest := (List.nodup_cons.mp hnodup).1
    have hstep : dedupRun w (id :: rest) = dedupRun (dedupInsert w id) rest := by
      simp [dedupRun, dedupStep, hid]
    rw [hstep]
    by_cases htop : w.length + 1 ≤ 20
    · have hins : dedupInsert w id = w ++ [id] := by
        unfold dedupInsert
        rw [if_neg]
        simp only [List.length_append, List.length_singleton]
        omega
      rw [hins]
      have hfresh' : ∀ x ∈ rest, x ∉ w ++ [id] := by
        intro x hx
        simp only [List.mem_append, List.mem_singleton]
        rintro (hxw | rfl)
        · exact hfresh x (List.mem_cons_of_mem _ hx) hxw
        · exact hidrest hx
      have := ih (w ++ [id]) hfresh'
        (by simp only [List.length_append, List.length_singleton]; omega)
        (List.nodup_cons.mp hnodup).2
      rw [this]
      have harr : w.length + 1 + rest.length - 20
          = w.length + (id :: rest).length - 20 := by
        simp only [List.length_cons]
        omega
      rw [List.append_assoc, List.singleton_append]
      simp only [List.length_append, List.length_singleton]
      rw [harr]
    · have h20 : w.length = 20 := by omega
      have hins : dedupInsert w id = (w ++ [id]).drop 1 := by
        unfold dedupInsert
        rw [if_pos]
        simp only [List.length_append, List.length_singleton]
        omega
      rw [hins]
      have hfresh' : ∀ x ∈ rest, x ∉ (w ++ [id]).drop 1 := by
        intro x hx hmem
        have hmem' : x ∈ w ++ [id] := List.mem_of_mem_drop hmem
        simp only [List.mem_append, List.mem_singleton] at hmem'
        rcases hmem' with hxw | rfl
        · exact hfresh x (List.mem_cons_of_mem _ hx) hxw
        · exact hidrest hx
      have hlen' : ((w ++ [id]).drop 1).length ≤ 20 := by
        simp only [List.length_drop, List.length_append, List.length_singleton]
        omega
      have := ih ((w ++ [id]).drop 1) hfresh' hlen' (List.nodup_cons.mp hnodup).2
      rw [this]
      have hlen'' : ((w ++ [id]).drop 1).length = 20 := by
        simp only [List.length_drop, List.length_append, List.length_singleton]
        omega
      rw [hlen'']
      have hd1 : ((w ++ [id]) ++ rest).drop 1 = (w ++ [id]).drop 1 ++ rest :=
        List.drop_append_of_le_length (by simp)
      rw [← hd1, List.drop_drop]
      rw [List.append_assoc, List.singleton_append]
      simp only [List.length_cons]
      congr 1
      omega

/-- Escape-tracking invariant: a url has been wrapped exactly once when it
is on the `escapedUrls` list, and never otherwise. -/
def EscInv (st : NormState) : Prop :=
  ∀ u : String, st.wraps.count u = if u ∈ st.escaped then 1 else 0

theorem escapeMediaUrl_escaped (st : NormState) (url u : String) :
    u ∈ (escapeMediaUrl st url).escaped ↔ u ∈ st.escaped ∨ u = url := by
  unfold escapeMediaUrl
  split
  · rename_i h
    have hurl : url ∈ st.escaped := by simpa using h
    constructor
    · exact Or.inl
    · rintro (h' | rfl)
      · exact h'
      · exact hurl
  · simp

theorem escapeMediaUrl_inv (st : NormState) (url : String) (h : EscInv st) :
    EscInv (escapeMediaUrl st url) := by
  intro u
  unfold escapeMediaUrl
  split
  · exact h u
  · rename_i hnc
    have hurl : url ∉ st.escaped := by simpa using hnc
    simp only [List.count_append]
    by_cases hu : u = url
    · subst hu
      have h0 : st.wraps.count u = 0 := by
        rw [h u, if_neg hurl]
      simp [h0]
    · have h1 : List.count u [url] = 0 := by
        simp [List.count_singleton']
        exact fun hc => absurd hc.symm hu
      rw [h1, Nat.add_zero, h u]
      have hmem : u ∈ st.escaped ++ [url] ↔ u ∈ st.escaped := by
        simp [hu]
      by_cases he : u ∈ st.escaped
      · rw [if_pos he, if_pos (hmem.mpr he)]
      · rw [if_neg he, if_neg (fun hx => he (hmem.mp hx))]

theorem processPhoto_inv (st : NormState) (m : MediaItem) (h : EscInv st) :
    EscInv (processPhoto st m) :=
  escapeMediaUrl_inv _ _ h

theorem processPhoto_escaped (st : NormState) (m : MediaItem) (u : String) :
    u ∈ (processPhoto st m).escaped ↔ u ∈ st.escaped ∨ u = m.url :=
  escapeMediaUrl_escaped _ _ _

theorem foldl_processPhoto_spec (ms : List MediaItem) : ∀ st : NormState, EscInv st →
    EscInv (ms.foldl processPhoto st) ∧
    (∀ u, u ∈ (ms.foldl processPhoto st).escaped ↔
      u ∈ st.escaped ∨ u ∈ ms.map MediaItem.url) := by
  induction ms with
  | nil =>
    intro st h
    refine ⟨h, fun u => ?_⟩
    simp
  | cons m rest ih =>
    intro st h
    obtain ⟨ha, hb⟩ := ih (processPhoto st m) (processPhoto_inv st m h)
    refine ⟨by simpa using ha, fun u => ?_⟩
    have := hb u
    rw [List.foldl_cons] at *
    rw [this, processPhoto_escaped]
    simp only [List.map_cons, List.mem_cons]
    tauto

theorem processGif_some_inv (st st1 : NormState) (m : MediaItem)
    (h : processGif st m = some st1) (hinv : EscInv st) :
    EscInv st1 ∧ ∀ u, (u ∈ st1.escaped ↔ u ∈ st.escaped ∨ u = m.url) := by
  unfold processGif at h
  cases hg : gifVideoUrl m with
  | none => rw [hg] at h; cases h
  | some vurl =>
    rw [hg] at h
    have h1 : st1 = escapeMediaUrl
        { st with mediaUrls := st.mediaUrls
            ++ [{ video := some vurl, image := m.media_url_https }] } m.url :=
      (Option.some.inj h).symm
    subst h1
    exact ⟨escapeMediaUrl_inv _ _ hinv, fun u => escapeMediaUrl_escaped _ _ _⟩

theorem processGifs_spec (ms : List MediaItem) : ∀ st st' : NormState,
    processGifs st ms = some st' → EscInv st →
    EscInv st' ∧ (∀ u, u ∈ st'.escaped ↔ u ∈ st.escaped ∨ u ∈ ms.map MediaItem.url) := by
  induction ms with
  | nil =>
    intro st st' h hinv
    cases h
    refine ⟨hinv, fun u => ?_⟩
    simp
  | cons m rest ih =>
    intro st st' h hinv
    unfold processGifs at h
    cases hg : processGif st m with
    | none => rw [hg] at h; cases h
    | some st1 =>
      rw [hg] at h
      obtain ⟨hinv1, hesc1⟩ := processGif_some_inv st st1 m hg hinv
      obtain ⟨ha, hb⟩ := ih st1 st' h hinv1
      refine ⟨ha, fun u => ?_⟩
      rw [hb u, hesc1 u]
      simp only [List.map_cons, List.mem_cons]
      tauto

theorem normalizeOutcome_ne_rejectedDuplicate (decode : String → String) (t : Tweet) :
    normalizeOutcome decode t ≠ HandlerOutcome.rejectedDuplicate := by
  unfold normalizeOutcome
  split
  · simp
  · split
    · simp
    · split
      · simp
      · simp

/-! ### Concrete inputs used by witnesses and counterexamples -/

def sampleUser : User := { id_str := "42", screen_name := "alice" }

def sampleTweet : Tweet :=
  { baseTweet with id_str := "100", user := sampleUser, text := "hi" }

def sampleStr : String :=
  "```" ++ "qml\nNew Tweet from alice:" ++ "```"
    ++ "<https://twitter.com/alice/status/100>\n" ++ "\n" ++ "hi\n"

/-! ### Claims -/

/-- C1, counterexample: a manually injected post (`manual = true`) whose
author id is not in `utils.ids` is rejected by the author filter before
archival, normalization and delivery — contrary to the claim that the
author-filter check is bypassed on the manual path. -/
theorem c1_counterexample :
    (tweetHandler (fun s => s) [] ["100"] sampleTweet true).outcome
        = HandlerOutcome.rejectedAuthor ∧
    (tweetHandler (fun s => s) [] ["100"] sampleTweet true).archived = none := by
  constructor <;> rfl

/-- C1, amended: on the manual path only the dedup-window check is
bypassed: the window is neither consulted nor updated and the outcome is
the one computed with an empty window, so a post whose id is already in
the DedupWindow still proceeds; the author filter however still applies,
rejecting a manual post whose author id is not in TrackedIdSet. -/
theorem c1_manual_bypasses_dedup_only (decode : String → String)
    (ids recent : List String) (t : Tweet) :
    (tweetHandler decode ids recent t true).window = recent ∧
    (tweetHandler decode ids recent t true).outcome
        ≠ HandlerOutcome.rejectedDuplicate ∧
    (tweetHandler decode ids recent t true).outcome
        = (tweetHandler decode ids [] t true).outcome ∧
    (t.delete = none → ids.contains t.user.id_str = false →
      (tweetHandler decode ids recent t true).outcome
          = HandlerOutcome.rejectedAuthor) := by
  cases hd : t.delete with
  | some d =>
    refine ⟨by simp [tweetHandler, hd], by simp [tweetHandler, hd],
      by simp [tweetHandler, hd], ?_⟩
    intro hnone
    exact Option.noConfusion hnone
  | none =>
    by_cases hc : t.user.id_str ∈ ids
    · refine ⟨?_, ?_, ?_, ?_⟩
      · simp [tweetHandler, hd, hc]
      · have key := normalizeOutcome_ne_rejectedDuplicate decode t
        simpa [tweetHandler, hd, hc] using key
      · simp [tweetHandler, hd, hc]
      · intro _ hcf
        have hct : ids.contains t.user.id_str = true := by simpa using hc
        rw [hct] at hcf
        exact Bool.noConfusion hcf
    · refine ⟨?_, ?_, ?_, fun _ _ => ?_⟩ <;> simp [tweetHandler, hd, hc]

/-- C1, witness: a manual post from a tracked author whose id is already in
the DedupWindow is delivered and leaves the window unchanged, while a
manual post from an untracked author is rejected. -/
theorem c1_witness :
    (tweetHandler (fun s => s) ["42"] ["100"] sampleTweet true).window = ["100"] ∧
    (tweetHandler (fun s => s) ["42"] ["100"] sampleTweet true).outcome
        ≠ HandlerOutcome.rejectedDuplicate ∧
    (tweetHandler (fun s => s) [] ["100"] sampleTweet true).outcome
        = HandlerOutcome.rejectedAuthor := by
  refine ⟨(c1_manual_bypasses_dedup_only (fun s => s) ["42"] ["100"] sampleTweet).1,
    (c1_manual_bypasses_dedup_only (fun s => s) ["42"] ["100"] sampleTweet).2.1,
    (c1_manual_bypasses_dedup_only (fun s => s) [] ["100"] sampleTweet).2.2.2 rfl rfl⟩

/-- C2, counterexample: the `connection aborted` handler sets
`utils.ids = []` but leaves `recentTweets` untouched, so a non-empty
DedupWindow is still non-empty after the handler runs — contrary to the
claim that both collections are cleared. -/
theorem c2_counterexample :
    (onConnectionAborted { ids := ["7"], recentTweets := ["t1"] }).recentTweets
      ≠ [] := by
  decide

/-- C2, amended: the `connection aborted` handler clears the TrackedIdSet
(`utils.ids`) and leaves the DedupWindow (`recentTweets`) unchanged. -/
theorem c2_abort_clears_only_ids (st : StreamState) :
    (onConnectionAborted st).ids = [] ∧
    (onConnectionAborted st).recentTweets = st.recentTweets :=
  ⟨rfl, rfl⟩

/-- C3: for every post the pipeline delivers, both the success and the
failure continuation of the media-batch promise invoke the delivery
collaborator with the original post and the assembled display string, and
exactly one of them runs, so delivery is invoked exactly once whether the
batch resolves or rejects. -/
theorem c3_delivery_exactly_once (decode : String → String)
    (ids recent : List String) (t : Tweet) (manual : Bool)
    (media : List MediaEntry) (str : String)
    (_h : (tweetHandler decode ids recent t manual).outcome
        = HandlerOutcome.delivered media str) :
    (∀ batch : Except String Unit,
      sendsOf (deliveryDispatch t str batch) = [(t, str)]) ∧
    deliveryDispatch t str (Except.ok ()) = [SendEffect.send t str] ∧
    (∀ e : String, deliveryDispatch t str (Except.error e)
        = [SendEffect.logMediaError, SendEffect.send t str]) := by
  refine ⟨fun batch => ?_, rfl, fun e => rfl⟩
  cases batch <;> rfl

/-- C3, witness: the sample tweet is delivered, and on both batch outcomes
the delivery collaborator receives exactly one send of the original tweet
and its assembled string. -/
theorem c3_witness :
    sendsOf (deliveryDispatch sampleTweet sampleStr (Except.ok ()))
        = [(sampleTweet, sampleStr)] ∧
    sendsOf (deliveryDispatch sampleTweet sampleStr (Except.error ("boom")))
        = [(sampleTweet, sampleStr)] := by
  have h := c3_delivery_exactly_once (fun s => s) ["42"] [] sampleTweet false
    [] sampleStr (by rfl)
  exact ⟨h.1 (Except.ok ()), h.1 (Except.error ("boom"))⟩

/-- C4: starting from the empty window, inserting a sequence of more than
20 distinct ids leaves exactly the 20 most recently inserted ids, in
insertion order, and a single insertion step never grows a window of
length at most 20 beyond 20. -/
theorem c4_dedup_window (ids : List String) (h1 : ids.Nodup)
    (h2 : 20 < ids.length) :
    dedupRun [] ids = ids.drop (ids.length - 20) ∧
    (dedupRun [] ids).length = 20 ∧
    ∀ (w : List String) (id : String), w.length ≤ 20 →
      (dedupStep w id).length ≤ 20 := by
  have hmain := dedupRun_fresh ids [] (by simp) (by simp) h1
  simp only [List.nil_append, List.length_nil, Nat.zero_add] at hmain
  refine ⟨hmain, ?_, ?_⟩
  · rw [hmain]
    simp only [List.length_drop]
    omega
  · intro w id hw
    unfold dedupStep
    split
    · exact hw
    · exact dedupInsert_length_le w id hw

def c4Ids : List String :=
  ["00", "01", "02", "03", "04", "05", "06", "07", "08", "09", "10",
   "11", "12", "13", "14", "15", "16", "17", "18", "19", "20"]

/-- C4, witness: inserting 21 distinct ids into the empty window leaves the
last 20 of them. -/
theorem c4_witness : dedupRun [] c4Ids = c4Ids.drop (c4Ids.length - 20) :=
  (c4_dedup_window c4Ids (by decide) (by decide)).1

/-- C5: the HTTP-error handler terminates the process if and only if the
reported status code is 401; every other status code produces no
process-terminating action. -/
theorem c5_http_401_fatal (code : Nat) :
    HttpAction.exitProcess ∈ onConnectionErrorHttp code ↔ code = 401 := by
  unfold onConnectionErrorHttp
  by_cases h : code = 401 <;> simp [h]

/-- C5, witness: status 401 terminates the process, status 500 does not. -/
theorem c5_witness :
    HttpAction.exitProcess ∈ onConnectionErrorHttp 401 ∧
    HttpAction.exitProcess ∉ onConnectionErrorHttp 500 :=
  ⟨(c5_http_401_fatal 401).mpr rfl,
   fun hmem => by simpa using (c5_http_401_fatal 500).mp hmem⟩

/-- C6: across the whole media pass (photos then animated gifs, sharing one
`escapedUrls` list), a wrap operation is performed on a given short URL
exactly once when some media item carries it and never otherwise — so a URL
occurring several times in the text, or shared by several media items, is
wrapped in angle brackets only once (the single-occurrence
`String.replace` touches only the first occurrence). -/
theorem c6_escape_once (ms : List MediaItem) (text0 : String) (st : NormState)
    (h : extractMedia (some { media := ms }) text0 = some st) (u : String) :
    st.wraps.count u = if u ∈ mediaShortUrls ms then 1 else 0 := by
  have hinv0 : EscInv { mediaUrls := [], escaped := [], text := text0, wraps := [] } := by
    intro v
    simp
  simp only [extractMedia] at h
  obtain ⟨hinv1, hesc1⟩ := foldl_processPhoto_spec
    (ms.filter (fun m => m.mtype == "photo"))
    { mediaUrls := [], escaped := [], text := text0, wraps := [] } hinv0
  obtain ⟨hinv2, hesc2⟩ := processGifs_spec
    (ms.filter (fun m => m.mtype == "animated_gif")) _ st h hinv1
  rw [hinv2 u]
  have hmem : u ∈ st.escaped ↔ u ∈ mediaShortUrls ms := by
    rw [hesc2 u, hesc1 u]
    simp only [List.not_mem_nil, false_or, mediaShortUrls, List.mem_append]
  by_cases hu : u ∈ mediaShortUrls ms
  · rw [if_pos (hmem.mpr hu), if_pos hu]
  · rw [if_neg (fun hx => hu (hmem.mp hx)), if_neg hu]

def c6Media : List MediaItem :=
  [{ mtype := "photo", url := "u", media_url_https := "img", video_info := none },
   { mtype := "photo", url := "u", media_url_https := "img", video_info := none }]

def c6St : NormState :=
  { mediaUrls := [{ video := none, image := "img" }, { video := none, image := "img" }],
    escaped := ["u"], text := "a <u> b u", wraps := ["u"] }

/-- C6, witness: two media items sharing the short URL `u`, which occurs
twice in the text `a u b u`, produce exactly one wrap operation; the
resulting text `a <u> b u` wraps only the first occurrence. -/
theorem c6_witness : c6St.wraps.count ("u") = 1 := by
  have h := c6_escape_once c6Media ("a u b u") c6St (by rfl) ("u")
  rw [h]
  decide

/-- C7: the retention sweep examines every listed archive file; a file with
a readable creation time is removed exactly when the current time exceeds
that creation time plus 28 days (2419200000 ms) and retained otherwise,
and a stat failure on one file is surfaced as its own per-file result
without affecting the results of the remaining files. -/
theorem c7_retention_sweep (now : Nat) (files : List FileInfo) :
    monthMs = 28 * 24 * 60 * 60 * 1000 ∧
    (removeOldFiles now files).length = files.length ∧
    ∀ (i : Nat) (f : FileInfo), files[i]? = some f →
      (∀ c : Nat, f.stat = some c →
        ((removeOldFiles now files)[i]? = some SweepResult.removed ↔
          c + monthMs < now) ∧
        (¬ c + monthMs < now →
          (removeOldFiles now files)[i]? = some SweepResult.retained)) ∧
      (f.stat = none → (removeOldFiles now files)[i]? = some SweepResult.statError) := by
  refine ⟨by norm_num [monthMs], by simp [removeOldFiles], ?_⟩
  intro i f hf
  have hres : (removeOldFiles now files)[i]? = some (sweepFile now f) := by
    simp [removeOldFiles, List.getElem?_map, hf]
  constructor
  · intro c hc
    rw [hres]
    unfold sweepFile
    rw [hc]
    constructor
    · by_cases h : c + monthMs < now <;> simp [h]
    · intro h
      simp [h]
  · intro hn
    rw [hres]
    unfold sweepFile
    rw [hn]

def c7Files : List FileInfo :=
  [{ name := "a", stat := some 1 }, { name := "b", stat := none },
   { name := "c", stat := some 4000000000 }]

/-- C7, witness: at time 5000000000 a file created at time 1 (older than 28
days) is removed, a file whose stat fails is marked without stopping the
sweep, and a later file created at 4000000000 (newer than 28 days) is
still examined and retained. -/
theorem c7_witness :
    (removeOldFiles 5000000000 c7Files)[0]? = some SweepResult.removed ∧
    (removeOldFiles 5000000000 c7Files)[1]? = some SweepResult.statError ∧
    (removeOldFiles 5000000000 c7Files)[2]? = some SweepResult.retained ∧
    (removeOldFiles 5000000000 c7Files).length = c7Files.length := by
  have h := c7_retention_sweep 5000000000 c7Files
  refine ⟨?_, ?_, ?_, h.2.1⟩
  · exact ((h.2.2 0 { name := "a", stat := some 1 } rfl).1 1 rfl).1.mpr
      (by norm_num [monthMs])
  · exact (h.2.2 1 { name := "b", stat := none } rfl).2 rfl
  · exact ((h.2.2 2 { name := "c", stat := some 4000000000 } rfl).1 4000000000 rfl).2
      (by norm_num [monthMs])

/-- C8: `connect()` with a successful persistence read first closes any
existing connection, reloads the TrackedIdSet to exactly the read set and
clears the reload flag; it opens a streaming session — filtered to exactly
that set, with stall warnings enabled, and strictly after the teardown —
precisely when the reloaded set is non-empty, and performs no connection
attempt when it is empty. -/
theorem c8_connect (st : ClientState) (feedIds : List String) :
    ((connect st (some feedIds)).1).ids = feedIds ∧
    ((connect st (some feedIds)).1).reload = false ∧
    (connect st (some feedIds)).2 =
      (if st.connOpen then [ConnAction.closeConn] else []) ++
        (if feedIds.isEmpty then [] else [ConnAction.openStream feedIds true]) := by
  cases hc : st.connOpen <;> cases he : feedIds.isEmpty <;>
    simp [connect, closeConnection, hc, he]

/-- C9: when the outer post carries `truncated = true`, the full text and
extended entities are read from the resolved context object: from the
`extended_tweet` of the retweeted post when the post is a retweet (the
extended fields of the outer post are ignored), and from the
`extended_tweet` of the post itself otherwise. -/
theorem c9_truncated_context (t : Tweet) (ht : t.truncated = true) :
    (∀ rt et, t.retweeted_status = some rt → rt.extended_tweet = some et →
      selectTextEntities t = some (et.full_text, et.extended_entities)) ∧
    (∀ et, t.retweeted_status = none → t.extended_tweet = some et →
      selectTextEntities t = some (et.full_text, et.extended_entities)) := by
  constructor
  · intro rt et hrt het
    simp [selectTextEntities, Tweet.context, ht, hrt, het]
  · intro et hrt het
    simp [selectTextEntities, Tweet.context, ht, hrt, het]

def c9Rt : InnerTweet :=
  { user := { id_str := "7", screen_name := "orig" }, text := "inner-short",
    extended_tweet := some { full_text := "inner-full", extended_entities := none },
    extended_entities := none }

def c9Tweet : Tweet :=
  { baseTweet with
    id_str := "200", user := sampleUser, truncated := true,
    text := "outer-short", retweeted_status := some c9Rt,
    extended_tweet := some { full_text := "outer-full", extended_entities := none } }

/-- C9, witness: a truncated retweet whose outer payload carries its own
(different) `extended_tweet` resolves text and entities from the retweeted
`extended_tweet` of the retweeted post, not the outer one. -/
theorem c9_witness : selectTextEntities c9Tweet = some ("inner-full", none) :=
  (c9_truncated_context c9Tweet rfl).1 c9Rt
    { full_text := "inner-full", extended_entities := none } rfl rfl

/-- C10: `deleteTweet` is total over malformed deletion payloads: when the
payload is absent, has no `delete` object, or has no nested
`delete.status` object, the guard returns before the persistence lookup,
so no lookup effect (and hence no delete request) is produced. -/
theorem c10_delete_guard (t : Option Tweet)
    (h : t = none ∨ ∃ tw, t = some tw ∧
      (tw.delete = none ∨ ∃ d, tw.delete = some d ∧ d.status = none)) :
    deleteTweet t = [] := by
  rcases h with rfl | ⟨tw, rfl, hd | ⟨d, hd, hs⟩⟩
  · rfl
  · simp [deleteTweet, hd]
  · simp [deleteTweet, hd, hs]

/-- C10, witness: a deletion notice whose `delete.status` is missing
produces no persistence lookup. -/
theorem c10_witness :
    deleteTweet (some { baseTweet with delete := some { status := none } }) = [] :=
  c10_delete_guard _ (Or.inr ⟨_, rfl, Or.inr ⟨{ status := none }, rfl, rfl⟩⟩)

end TTD
